import Mathlib

/-!
Verification of the QuickRewind orchestration core.

This file gives a shallow embedding, over `List Char` strings, of

  * the MCP tool registry (backend/app/core/mcp.py): tool registration,
    lookup, parameter validation and synchronous/asynchronous invocation;
  * the Planning-then-Execution orchestrator
    (backend/app/services/agent_service.py, class
    PlanningThenExecutionExecutor): plan parsing, step parsing, action
    classification, parameter parsing, tool execution with timeout, the
    final-answer extraction with its marker-stripping regular
    expressions, and the event trace produced by ainvoke;
  * the fallback orchestrator (FallbackPlanningThenExecutionExecutor).

The generation model is abstracted as an oracle mapping the index of the
call within a run to the returned text; prompt texts influence neither
control flow nor any observable of the model, so they are not built.
Tool invocations performed through asyncio.wait_for(call_tool_async ...)
are abstracted as a behaviour oracle returning either the awaited
ToolResponse's result field or a timeout.  Each regular-expression
substitution used by the code is embedded as a dedicated executable
function reproducing the Python re semantics of that concrete pattern.
-/

namespace QR

/-! ## Basic string machinery (Python semantics, over List Char) -/

/-- Python str whitespace (the ASCII part; all texts handled here are
covered by it): space, tab, newline, carriage return, vertical tab,
form feed. -/
def isSpacePy (c : Char) : Bool :=
  c = ' ' || c = '\t' || c = '\n' || c = '\r' || c = Char.ofNat 11 || c = Char.ofNat 12

/-- Python str.lstrip(). -/
def lstripPy (s : List Char) : List Char := s.dropWhile isSpacePy

/-- Python str.rstrip(). -/
def rstripPy (s : List Char) : List Char := (s.reverse.dropWhile isSpacePy).reverse

/-- Python str.strip(). -/
def stripPy (s : List Char) : List Char := rstripPy (lstripPy s)

/-- Does s start with p (Python str.startswith)? -/
def startsWithL : List Char → List Char → Bool
  | _, [] => true
  | [], _ :: _ => false
  | c :: s, d :: p => c = d && startsWithL s p

/-- Does s end with p (Python str.endswith)? -/
def endsWithL (s p : List Char) : Bool := startsWithL s.reverse p.reverse

/-- First index at or after the running index i where sub occurs in the
remaining text; models Python str.find on the suffix. -/
def findSubAux (sub : List Char) : List Char → Nat → Option Nat
  | [], i => if sub = [] then some i else none
  | c :: rest, i =>
    if startsWithL (c :: rest) sub then some i else findSubAux sub rest (i + 1)

/-- Python s.find(sub) as an Option (none for -1). -/
def findSub (s sub : List Char) : Option Nat := findSubAux sub s 0

/-- Python s.find(sub, start) as an Option. -/
def findSubFrom (s sub : List Char) (start : Nat) : Option Nat :=
  match findSubAux sub (s.drop start) 0 with
  | some j => some (start + j)
  | none => none

/-- Python (sub in s). -/
def containsSub (s sub : List Char) : Bool := (findSub s sub).isSome

/-- Python s.rfind(sub): index of the last occurrence. -/
def rfindSubAux (sub : List Char) : List Char → Nat → Option Nat → Option Nat
  | [], i, acc => if sub = [] then some i else acc
  | c :: rest, i, acc =>
    rfindSubAux sub rest (i + 1)
      (if startsWithL (c :: rest) sub then some i else acc)

/-- Python s.rfind(sub) as an Option. -/
def rfindSub (s sub : List Char) : Option Nat := rfindSubAux sub s 0 none

/-- Python slice s[a:b] (with the usual clamping, no negative indices). -/
def sliceL (s : List Char) (a b : Nat) : List Char := (s.take b).drop a

/-- The text after the first occurrence of sub (used for
s[s.index(sub) + len(sub):]); the whole text when sub is absent. -/
def afterFirst (s sub : List Char) : List Char :=
  match findSub s sub with
  | some i => s.drop (i + sub.length)
  | none => s

/-- Python s.split(sep, 1)[1] together with its existence: the part after
the first occurrence of the character sep. -/
def afterFirstChar (c : Char) : List Char → List Char
  | [] => []
  | d :: rest => if d = c then rest else afterFirstChar c rest

/-- Python str.strip(chars) for an explicit character set. -/
def stripSet (cs : List Char) (s : List Char) : List Char :=
  ((s.dropWhile (fun c => cs.contains c)).reverse.dropWhile
    (fun c => cs.contains c)).reverse

/-- Split on a character (Python str.split(ch)). -/
def splitOnChar (c : Char) (s : List Char) : List (List Char) := s.splitOn c

def quoteChar : Char := Char.ofNat 39

def dquoteChar : Char := Char.ofNat 34

end QR

namespace QR

/-! Quick sanity checks of the string machinery. -/

example : stripPy "  ab ".data = "ab".data := by decide

example : findSub "abcabc".data "bc".data = some 1 := by decide

example : rfindSub "abcabc".data "bc".data = some 4 := by decide

example : containsSub "hello".data "ell".data = true := by decide

example : sliceL "abcdef".data 2 4 = "cd".data := by decide

example : afterFirst "xxPlan:yy".data "Plan:".data = "yy".data := by decide

example : endsWithL "abc]".data "]".data = true := by decide

end QR

namespace QR

/-! ## MCP tool registry (backend/app/core/mcp.py) -/

/-- Parameter values and results are modelled as strings (they are opaque
to the registry). -/
abbrev Str := List Char

/-- Association list standing for a Python dict: insertion order is kept,
assigning to an existing key replaces the value in place. -/
def assocLookup (l : List (Str × α)) (k : Str) : Option α :=
  match l with
  | [] => none
  | (k0, v0) :: rest => if k0 = k then some v0 else assocLookup rest k

/-- Python dict assignment d[k] = v: replace in place if the key exists,
append otherwise. -/
def assocSet (l : List (Str × α)) (k : Str) (v : α) : List (Str × α) :=
  match l with
  | [] => [(k, v)]
  | (k0, v0) :: rest =>
    if k0 = k then (k0, v) :: rest else (k0, v0) :: assocSet rest k v

/-- class ToolParameter (mcp.py): name, type, description, required,
default. -/
structure ToolParameter where
  name : Str
  type : Str
  description : Str
  required : Bool
  default : Option Str
deriving DecidableEq

/-- class ToolDefinition (mcp.py). -/
structure ToolDefinition where
  name : Str
  description : Str
  parameters : List ToolParameter
  returns : List (Str × Str)
  tags : List Str
deriving DecidableEq

/-- class ToolResponse (mcp.py): success, result, error, metadata. -/
structure ToolResponse where
  success : Bool
  result : Option Str
  error : Option Str
  metadata : List (Str × Str)
deriving DecidableEq

/-- A registered tool's callable: given the parameter map it either
returns normally or raises (Except.error carries str(e)). -/
abbrev ToolFunc := List (Str × Str) → Except Str Str

/-- One entry of MCPServer._tools: the stored dict
{'function': func, 'definition': definition}. -/
structure ToolEntry where
  func : ToolFunc
  definition : ToolDefinition

/-- MCPServer._tools, a dict from tool name to entry. -/
abbrev RegState := List (Str × ToolEntry)

/-- The fixed type enum accepted by register_tool. -/
def validTypes : List Str :=
  ["string".data, "number".data, "boolean".data, "array".data,
   "object".data, "file".data]

/-- MCPServer.register_tool.  The body first (only logs a warning when the
name exists), then validates every parameter's type, raising
ValueError(f"Invalid parameter type {param.type}") on the first invalid
one, and only after the whole validation loop stores the entry.  The
returned pair is the dict after the call together with the normal/raised
outcome, so a raise leaves the dict exactly as it was. -/
def register_tool (st : RegState) (name : Str) (func : ToolFunc)
    (description : Str) (parameters : List ToolParameter)
    (returns : List (Str × Str)) (tags : List Str) :
    RegState × Except Str Unit :=
  match parameters.find? (fun p => !validTypes.contains p.type) with
  | some p => (st, Except.error ("Invalid parameter type ".data ++ p.type))
  | none =>
    (assocSet st name
      { func := func,
        definition :=
          { name := name, description := description,
            parameters := parameters, returns := returns, tags := tags } },
     Except.ok ())

/-- MCPServer.get_available_tools: the definitions, in dict order. -/
def get_available_tools (st : RegState) : List ToolDefinition :=
  st.map (fun t => t.2.definition)

/-- MCPServer.get_tool. -/
def get_tool (st : RegState) (name : Str) : Option ToolEntry :=
  assocLookup st name

/-- MCPServer._validate_parameters: raises
ValueError(f"Required parameter {param_name} missing") for the first
required parameter missing from the given map; returns the error text. -/
def validate_parameters (tool_def : ToolDefinition)
    (parameters : List (Str × Str)) : Option Str :=
  match ((tool_def.parameters.filter (fun p => p.required)).map
      (fun p => p.name)).find?
      (fun n => (assocLookup parameters n).isNone) with
  | some n => some ("Required parameter ".data ++ n ++ " missing".data)
  | none => none

/-- MCPServer.call_tool: not-found and validation failures, and any error
raised by the callable, are wrapped as a failed ToolResponse; a normal
return is wrapped as a successful one. -/
def call_tool (st : RegState) (tool_name : Str)
    (parameters : List (Str × Str)) : ToolResponse :=
  match get_tool st tool_name with
  | none =>
    { success := false, result := none,
      error := some ("Tool ".data ++ tool_name ++ " not found".data),
      metadata := [] }
  | some tool =>
    match validate_parameters tool.definition parameters with
    | some msg =>
      { success := false, result := none, error := some msg, metadata := [] }
    | none =>
      match tool.func parameters with
      | Except.error e =>
        { success := false, result := none, error := some e, metadata := [] }
      | Except.ok v =>
        { success := true, result := some v, error := none, metadata := [] }

/-- MCPServer.call_tool_async performs the same lookup, validation and
wrapping as call_tool; the only difference in the source is that a
synchronous callable is dispatched through asyncio.to_thread, which does
not change the returned ToolResponse. -/
def call_tool_async (st : RegState) (tool_name : Str)
    (parameters : List (Str × Str)) : ToolResponse :=
  call_tool st tool_name parameters

end QR

namespace QR

/-! ## Dict lemmas used for the registry claims -/

lemma assocLookup_set_self (l : List (Str × α)) (k : Str) (v : α) :
    assocLookup (assocSet l k v) k = some v := by
  induction l with
  | nil => simp [assocSet, assocLookup]
  | cons h t ih =>
    obtain ⟨k0, v0⟩ := h
    by_cases hk : k0 = k
    · simp [assocSet, hk, assocLookup]
    · simp [assocSet, hk, assocLookup, ih]

lemma assocLookup_set_ne (l : List (Str × α)) (k : Str) (v : α) (m : Str)
    (h : m ≠ k) : assocLookup (assocSet l k v) m = assocLookup l m := by
  induction l with
  | nil =>
    have hk : ¬ k = m := fun hh => h hh.symm
    simp [assocSet, assocLookup, hk]
  | cons hd t ih =>
    obtain ⟨k0, v0⟩ := hd
    by_cases hk : k0 = k
    · subst hk
      have hm : ¬ k0 = m := fun hh => h hh.symm
      simp [assocSet, assocLookup, hm]
    · simp only [assocSet, if_neg hk, assocLookup]
      by_cases hm : k0 = m
      · simp [hm]
      · simp [hm, ih]

lemma mem_map_fst_assocSet (l : List (Str × α)) (k : Str) (v : α) (m : Str) :
    m ∈ (assocSet l k v).map Prod.fst ↔ m ∈ l.map Prod.fst ∨ m = k := by
  induction l with
  | nil =>
    constructor
    · intro hm
      simp [assocSet] at hm
      exact Or.inr hm
    · intro hm
      rcases hm with hm | hm
      · simp at hm
      · simp [assocSet, hm]
  | cons hd t ih =>
    obtain ⟨k0, v0⟩ := hd
    by_cases hk : k0 = k
    · subst hk
      have e : assocSet ((k0, v0) :: t) k0 v = (k0, v) :: t := by
        simp [assocSet]
      rw [e]
      simp only [List.map_cons, List.mem_cons]
      tauto
    · have e : assocSet ((k0, v0) :: t) k v = (k0, v0) :: assocSet t k v := by
        simp [assocSet, hk]
      rw [e]
      simp only [List.map_cons, List.mem_cons, ih]
      tauto

lemma nodup_map_fst_assocSet (l : List (Str × α)) (k : Str) (v : α)
    (h : (l.map Prod.fst).Nodup) :
    ((assocSet l k v).map Prod.fst).Nodup := by
  induction l with
  | nil => simp [assocSet]
  | cons hd t ih =>
    obtain ⟨k0, v0⟩ := hd
    simp only [List.map_cons, List.nodup_cons] at h
    by_cases hk : k0 = k
    · subst hk
      have e : assocSet ((k0, v0) :: t) k0 v = (k0, v) :: t := by
        simp [assocSet]
      rw [e]
      simp only [List.map_cons, List.nodup_cons]
      exact h
    · have e : assocSet ((k0, v0) :: t) k v = (k0, v0) :: assocSet t k v := by
        simp [assocSet, hk]
      rw [e]
      simp only [List.map_cons, List.nodup_cons]
      constructor
      · rw [mem_map_fst_assocSet]
        rintro (hm | hm)
        · exact h.1 hm
        · exact hk hm
      · exact ih h.2

lemma count_map_fst_assocSet (l : List (Str × α)) (k : Str) (v : α)
    (h : (l.map Prod.fst).count k ≤ 1) :
    ((assocSet l k v).map Prod.fst).count k = 1 := by
  induction l with
  | nil => simp [assocSet]
  | cons hd t ih =>
    obtain ⟨k0, v0⟩ := hd
    by_cases hk : k0 = k
    · subst hk
      simp only [List.map_cons, List.count_cons_self] at h
      have h0 : (t.map Prod.fst).count k0 = 0 := by omega
      simp [assocSet, List.count_cons, h0]
    · simp only [List.map_cons, List.count_cons, if_neg hk] at h ⊢
      simp only [assocSet, if_neg hk, List.map_cons, List.count_cons]
      have := ih (by omega)
      simp [this, hk]

end QR

namespace QR

/-! ## Claims C3, C8, C10 about the registry -/

/-- C3: for a tool whose definition has a required parameter p1 and an
optional parameter p2, invoking it through call_tool or call_tool_async
with an empty parameter map yields success = false with an error message
naming p1 — independently of the registered callable, which is therefore
never executed — while invoking it with p1 supplied returns
success = true carrying the callable's return value whenever the callable
returns normally. -/
theorem C3_required_param_validation
    (st : RegState) (T : Str) (entry : ToolEntry) (p1 p2 : ToolParameter)
    (hT : get_tool st T = some entry)
    (hps : entry.definition.parameters = [p1, p2])
    (h1 : p1.required = true) (h2 : p2.required = false) :
    (call_tool st T [] =
      { success := false, result := none,
        error := some ("Required parameter ".data ++ p1.name ++ " missing".data),
        metadata := [] } ∧
     call_tool_async st T [] =
      { success := false, result := none,
        error := some ("Required parameter ".data ++ p1.name ++ " missing".data),
        metadata := [] }) ∧
    (∀ v r, entry.func [(p1.name, v)] = Except.ok r →
      call_tool st T [(p1.name, v)] =
        { success := true, result := some r, error := none, metadata := [] } ∧
      call_tool_async st T [(p1.name, v)] =
        { success := true, result := some r, error := none, metadata := [] }) := by
  have hval0 : validate_parameters entry.definition [] =
      some ("Required parameter ".data ++ p1.name ++ " missing".data) := by
    unfold validate_parameters
    rw [hps]
    simp [List.filter, h1, h2, assocLookup, List.find?]
  have hval1 : ∀ v, validate_parameters entry.definition [(p1.name, v)] = none := by
    intro v
    unfold validate_parameters
    rw [hps]
    simp [List.filter, h1, h2, assocLookup, List.find?]
  refine ⟨⟨?_, ?_⟩, ?_⟩
  · simp only [call_tool, hT, hval0]
  · simp only [call_tool_async, call_tool, hT, hval0]
  · intro v r hr
    refine ⟨?_, ?_⟩
    · simp only [call_tool, hT, hval1, hr]
    · simp only [call_tool_async, call_tool, hT, hval1, hr]

def c3Param1 : ToolParameter :=
  { name := "p1".data, type := "string".data, description := [],
    required := true, default := none }

def c3Param2 : ToolParameter :=
  { name := "p2".data, type := "string".data, description := [],
    required := false, default := none }

def c3Entry : ToolEntry :=
  { func := fun _ => Except.ok "res".data,
    definition :=
      { name := "toolT".data, description := [],
        parameters := [c3Param1, c3Param2], returns := [], tags := [] } }

def c3State : RegState := [("toolT".data, c3Entry)]

/-- Witness for C3 at a concrete one-tool registry. -/
theorem C3_required_param_validation_witness :
    call_tool c3State "toolT".data [] =
      { success := false, result := none,
        error := some ("Required parameter ".data ++ "p1".data ++ " missing".data),
        metadata := [] } ∧
    call_tool c3State "toolT".data [("p1".data, "v".data)] =
      { success := true, result := some "res".data, error := none,
        metadata := [] } := by
  have h := C3_required_param_validation c3State "toolT".data c3Entry
    c3Param1 c3Param2 (by rfl) (by rfl) (by rfl) (by rfl)
  exact ⟨h.1.1, (h.2 "v".data "res".data rfl).1⟩

end QR

namespace QR

lemma count_le_one_of_nodup (l : List Str) (k : Str) (h : l.Nodup) :
    l.count k ≤ 1 := by
  induction l with
  | nil => simp
  | cons a t ih =>
    rw [List.nodup_cons] at h
    by_cases hk : k = a
    · subst hk
      have h0 : t.count k = 0 := List.count_eq_zero.mpr h.1
      simp [List.count_cons, h0]
    · simp [List.count_cons, hk, ih h.2]

/-- C8: re-registering a tool name with a second valid definition does not
raise, afterwards the registry holds exactly one entry for that name,
that entry carries the second definition, and every other name resolves
exactly as before the overwrite. -/
theorem C8_reregistration_overwrite
    (st : RegState) (name : Str)
    (f1 f2 : ToolFunc) (d1 d2 : Str) (ps1 ps2 : List ToolParameter)
    (r1 r2 : List (Str × Str)) (t1 t2 : List Str)
    (hnd : (st.map Prod.fst).Nodup)
    (hv1 : ps1.find? (fun p => !validTypes.contains p.type) = none)
    (hv2 : ps2.find? (fun p => !validTypes.contains p.type) = none) :
    (register_tool (register_tool st name f1 d1 ps1 r1 t1).1
        name f2 d2 ps2 r2 t2).2 = Except.ok () ∧
    (((register_tool (register_tool st name f1 d1 ps1 r1 t1).1
        name f2 d2 ps2 r2 t2).1.map Prod.fst).count name = 1) ∧
    ((get_tool (register_tool (register_tool st name f1 d1 ps1 r1 t1).1
        name f2 d2 ps2 r2 t2).1 name).map (fun e => e.definition) =
      some { name := name, description := d2, parameters := ps2,
             returns := r2, tags := t2 }) ∧
    (∀ m, m ≠ name →
      get_tool (register_tool (register_tool st name f1 d1 ps1 r1 t1).1
        name f2 d2 ps2 r2 t2).1 m =
      get_tool (register_tool st name f1 d1 ps1 r1 t1).1 m) := by
  have e1 : (register_tool st name f1 d1 ps1 r1 t1).1 =
      assocSet st name
        { func := f1,
          definition := { name := name, description := d1,
                          parameters := ps1, returns := r1, tags := t1 } } := by
    simp only [register_tool, hv1]
  have e2 : ∀ st0 : RegState,
      register_tool st0 name f2 d2 ps2 r2 t2 =
        (assocSet st0 name
          { func := f2,
            definition := { name := name, description := d2,
                            parameters := ps2, returns := r2, tags := t2 } },
         Except.ok ()) := by
    intro st0
    simp only [register_tool, hv2]
  rw [e1, e2]
  have hnd1 := nodup_map_fst_assocSet st name
    { func := f1,
      definition := { name := name, description := d1,
                      parameters := ps1, returns := r1, tags := t1 } } hnd
  refine ⟨rfl, ?_, ?_, ?_⟩
  · exact count_map_fst_assocSet _ name _ (count_le_one_of_nodup _ name hnd1)
  · simp [get_tool, assocLookup_set_self]
  · intro m hm
    simp only [get_tool]
    exact assocLookup_set_ne _ name _ m hm

def c8Def1Entry : ToolParameter :=
  { name := "q".data, type := "string".data, description := [],
    required := true, default := none }

def c8Def2Entry : ToolParameter :=
  { name := "q".data, type := "number".data, description := "new".data,
    required := false, default := none }

/-- Witness for C8: registering the same name twice in an initially empty
registry. -/
theorem C8_reregistration_overwrite_witness :
    (register_tool (register_tool [] "t".data (fun _ => Except.ok [])
        "old".data [c8Def1Entry] [] [] ).1
        "t".data (fun _ => Except.ok []) "new".data [c8Def2Entry] []
        ["x".data]).2 = Except.ok () ∧
    (((register_tool (register_tool [] "t".data (fun _ => Except.ok [])
        "old".data [c8Def1Entry] [] [] ).1
        "t".data (fun _ => Except.ok []) "new".data [c8Def2Entry] []
        ["x".data]).1.map Prod.fst).count "t".data = 1) ∧
    ((get_tool (register_tool (register_tool [] "t".data (fun _ => Except.ok [])
        "old".data [c8Def1Entry] [] [] ).1
        "t".data (fun _ => Except.ok []) "new".data [c8Def2Entry] []
        ["x".data]).1 "t".data).map (fun e => e.definition) =
      some { name := "t".data, description := "new".data,
             parameters := [c8Def2Entry], returns := [],
             tags := ["x".data] }) := by
  have h := C8_reregistration_overwrite [] "t".data
    (fun _ => Except.ok []) (fun _ => Except.ok []) "old".data "new".data
    [c8Def1Entry] [c8Def2Entry] [] [] [] ["x".data]
    (by simp) (by rfl) (by rfl)
  exact ⟨h.1, h.2.1, h.2.2.1⟩

/-- C10: registration is atomic on failure — when the parameter list
contains a type outside the fixed enum (q being the first such
parameter), register_tool raises ValueError with that type's name and
returns the tool table exactly as it was before the call. -/
theorem C10_registration_atomic
    (st : RegState) (name : Str) (func : ToolFunc) (d : Str)
    (params : List ToolParameter) (rets : List (Str × Str)) (tags : List Str)
    (q : ToolParameter)
    (hfind : params.find? (fun p => !validTypes.contains p.type) = some q) :
    q ∈ params ∧ validTypes.contains q.type = false ∧
    register_tool st name func d params rets tags =
      (st, Except.error ("Invalid parameter type ".data ++ q.type)) := by
  refine ⟨List.mem_of_find?_eq_some hfind, ?_, ?_⟩
  · have := List.find?_some hfind
    simpa using this
  · simp only [register_tool, hfind]

def c10BadParam : ToolParameter :=
  { name := "x".data, type := "integer".data, description := [],
    required := true, default := none }

/-- Witness for C10: a parameter of type integer (outside the enum) makes
registration fail and leaves a pre-populated registry untouched. -/
theorem C10_registration_atomic_witness :
    c10BadParam ∈ [c10BadParam] ∧
    validTypes.contains c10BadParam.type = false ∧
    register_tool c3State "t2".data (fun _ => Except.ok []) "d".data
        [c10BadParam] [] [] =
      (c3State, Except.error ("Invalid parameter type ".data ++ "integer".data)) :=
  C10_registration_atomic c3State "t2".data (fun _ => Except.ok []) "d".data
    [c10BadParam] [] [] c10BadParam (by rfl)

end QR

namespace QR

/-! ## Plan / step / action parsing
(agent_service.py, PlanningThenExecutionExecutor) -/

def planMarker : Str := "Plan:".data

def reasoningMarker : Str := "Reasoning:".data

def stepMarker : Str := "Step:".data

def actionMarker : Str := "Action:".data

def resultMarker : Str := "Result:".data

def lparenStr : Str := "(".data

def rparenStr : Str := ")".data

/-- First index of sub in s, defaulting to 0; only used under a guard
that sub occurs in s (Python str.index would raise otherwise). -/
def idxOr0 (s sub : Str) : Nat :=
  match findSub s sub with
  | some i => i
  | none => 0

/-- Index of sub in s starting the search at start, defaulting to the
length of s when absent (the pattern
s.find(m, start) if m in s[start:] else len(s)). -/
def idxFromOrLen (s sub : Str) (start : Nat) : Nat :=
  match findSubFrom s sub start with
  | some i => i
  | none => s.length

/-- The ordinal line tests of _parse_plan_with_reasoning: the source only
checks line.startswith for "1." through "5.". -/
def ordinalStarts : List Str :=
  ["1.".data, "2.".data, "3.".data, "4.".data, "5.".data]

/-- One iteration of the plan-line loop (_parse_plan_with_reasoning,
inner for): strip the line, keep it only when it starts with one of the
five ordinals, drop the text up to and including the first dot, strip,
then cut everything from the first hyphen when the remainder contains a
hyphen not at position 0; empty descriptions are not appended. -/
def planLineStep (line : Str) : Option Str :=
  let l := stripPy line
  if ordinalStarts.any (fun p => startsWithL l p) then
    if containsSub l ".".data then
      let step_parts := stripPy (afterFirstChar '.' l)
      let step_desc :=
        if containsSub step_parts "-".data &&
            !startsWithL step_parts "-".data then
          stripPy (step_parts.takeWhile (fun c => c ≠ '-'))
        else step_parts
      if step_desc = [] then none else some step_desc
    else none
  else none

/-- _parse_plan_with_reasoning: extracts the reasoning text between the
Reasoning: marker and the next section marker (Plan:, Step: or
Execution: occurring after it, else the end of the text), and the plan
steps from the ordinal lines following the Plan: marker.  With no Plan:
marker the step list is empty. -/
def parse_plan_with_reasoning (response : Str) : List Str × Str :=
  let reasoning :=
    if containsSub response reasoningMarker then
      let rs := idxOr0 response reasoningMarker + reasoningMarker.length
      let nxt := min (idxFromOrLen response planMarker rs)
        (min (idxFromOrLen response stepMarker rs)
          (idxFromOrLen response "Execution:".data rs))
      stripPy (sliceL response rs nxt)
    else "无详细推理".data
  let plan_steps :=
    if containsSub response planMarker then
      (splitOnChar '\n' (response.drop (idxOr0 response planMarker))).filterMap
        planLineStep
    else []
  (plan_steps, reasoning)

/-- _parse_execution_step: the Step: text runs to the next Action: after
it (or to the end); the Action: text starts after the first Action:
anywhere in the response and runs to the next Result: after it (or to
the end). -/
def parse_execution_step (response : Str) : Option Str × Option Str :=
  let step_info :=
    if containsSub response stepMarker then
      let ss := idxOr0 response stepMarker + 5
      match findSubFrom response actionMarker ss with
      | some p => some (stripPy (sliceL response ss p))
      | none => some (stripPy (response.drop ss))
    else none
  let action :=
    if containsSub response actionMarker then
      let asx := idxOr0 response actionMarker + 7
      match findSubFrom response resultMarker asx with
      | some p => some (stripPy (sliceL response asx p))
      | none => some (stripPy (response.drop asx))
    else none
  (step_info, action)

/-- The character scan of _parse_complex_params: walk params_str + ","
tracking quote state; a comma outside quotes flushes the (stripped,
nonempty) current token.  Text still pending when the scan ends is
discarded, exactly as in the source. -/
def splitParamsAux : List Char → Bool → Option Char → List Char →
    List Str → List Str
  | [], _, _, _, acc => acc.reverse
  | c :: rest, inq, qc, cur, acc =>
    if (c = quoteChar || c = dquoteChar) && (!inq || qc = some c) then
      (if inq then splitParamsAux rest false none (c :: cur) acc
       else splitParamsAux rest true (some c) (c :: cur) acc)
    else if c = ',' && !inq then
      (let p := stripPy cur.reverse
       splitParamsAux rest inq qc [] (if p = [] then acc else p :: acc))
    else splitParamsAux rest inq qc (c :: cur) acc

/-- One parameter pair: split on the first "=", strip both sides, remove
one layer of matching outer quotes from the value. -/
def paramPairEntry (pair : Str) : Option (Str × Str) :=
  if containsSub pair "=".data then
    let key := stripPy (pair.takeWhile (fun c => c ≠ '='))
    let v0 := stripPy (afterFirstChar '=' pair)
    let v :=
      if (startsWithL v0 [quoteChar] && endsWithL v0 [quoteChar]) ||
          (startsWithL v0 [dquoteChar] && endsWithL v0 [dquoteChar]) then
        sliceL v0 1 (v0.length - 1)
      else v0
    some (key, v)
  else none

/-- _parse_complex_params.  The params dict is built in token order with
dict-assignment semantics; tokens without "=" are dropped.  (The except
fallback of the source is unreachable: the scan raises nothing.) -/
def parse_complex_params (params_str : Str) : List (Str × Str) :=
  if stripPy params_str = [] then []
  else
    (splitParamsAux (params_str ++ [',']) false none [] []).foldl
      (fun acc pr =>
        match paramPairEntry pr with
        | some (k, v) => assocSet acc k v
        | none => acc) []

/-- The direct-answer test of the execution loop (line 613):
action.startswith("Direct[") and action.endswith("]"). -/
def isDirectAction (a : Str) : Bool :=
  startsWithL a "Direct[".data && endsWithL a "]".data

/-- The direct answer text: action[7:-1].strip(). -/
def directText (a : Str) : Str := stripPy (sliceL a 7 (a.length - 1))

/-- Lines 630-637: an action without both parens whose stripped text is a
known tool name is rewritten to name(). -/
def normalizeAction (tools : List Str) (a : Str) : Str :=
  if !containsSub a lparenStr || !containsSub a rparenStr then
    (let cand := stripPy a
     if tools.contains cand then cand ++ "()".data else a)
  else a

/-- Classification of an execution-phase action string, mirroring the
branching of lines 613 (Direct check), 630-637 (normalization) and
843-859 of _execute_tool (tool-call shape): a Direct[..] wrapper is a
direct answer; otherwise an action containing "(" and ")" is a tool
call on the text before the first "(" with the parsed parameter map;
anything else reaches the "工具调用格式错误" branch. -/
inductive ActionKind where
  | direct (text : Str)
  | toolCall (name : Str) (params : List (Str × Str))
  | formatError
deriving DecidableEq

def classify_action (tools : List Str) (action : Str) : ActionKind :=
  if isDirectAction action then ActionKind.direct (directText action)
  else
    let a := normalizeAction tools action
    if containsSub a lparenStr && containsSub a rparenStr then
      let tne := idxOr0 a lparenStr
      ActionKind.toolCall (stripPy (a.take tne))
        (parse_complex_params (stripPy (sliceL a (tne + 1) (a.length - 1))))
    else ActionKind.formatError

end QR

namespace QR

/-! ## Claims C4 and C5 -/

lemma startsWithL_append (p s : Str) : startsWithL (p ++ s) p = true := by
  induction p with
  | nil =>
    cases s with
    | nil => rfl
    | cons c t => rfl
  | cons c p ih => simp [startsWithL, ih]

lemma endsWithL_concat (s : Str) (c : Char) :
    endsWithL (s ++ [c]) [c] = true := by
  unfold endsWithL
  rw [List.reverse_append]
  simp [startsWithL]

/-- The counterexample text for C4: six ordinal lines after Plan:. -/
def c4SixText : Str := "Plan:\n1. a\n2. b\n3. c\n4. d\n5. e\n6. f".data

/-- C4 counterexample: the claim predicts one step per ordinal line, i.e.
six steps for this text, but the parser only matches ordinals 1. to 5.,
so the sixth line is silently dropped and only five steps come back. -/
theorem C4_six_step_plan_truncated :
    (parse_plan_with_reasoning c4SixText).1 =
      ["a".data, "b".data, "c".data, "d".data, "e".data] ∧
    (parse_plan_with_reasoning c4SixText).1.length ≠ 6 := by
  constructor
  · decide
  · decide

/-- The plan example from the specification. -/
def c4SpecExample : Str :=
  "Plan:\n1. find X - toolA\n2. summarize - toolB\nReasoning: because Y".data

/-- A plan whose ordinal numbering restarts: the loop has no cap and no
deduplication, so all six 1.-5.-prefixed lines yield entries. -/
def c4DupOrdinals : Str := "Plan:\n1. a\n2. b\n3. c\n4. d\n5. e\n1. f".data

/-- C4 (amended: the parser collects one entry per line whose stripped
text starts with one of the five prefixes 1. through 5. — a line with
any other numbering, such as 6., is ignored, while repeated or restarted
1.-5. numbering keeps contributing entries, so more than five steps can
be parsed): the spec's example parses to steps [find X, summarize] with
reasoning "because Y", the hyphen annotation being dropped from each
matched line; a restarted numbering yields six steps; and any text
without a Plan: marker yields an empty step list. -/
theorem C4_plan_parse_amended :
    parse_plan_with_reasoning c4SpecExample =
      (["find X".data, "summarize".data], "because Y".data) ∧
    (parse_plan_with_reasoning c4DupOrdinals).1 =
      ["a".data, "b".data, "c".data, "d".data, "e".data, "f".data] ∧
    (∀ r : Str, containsSub r planMarker = false →
      (parse_plan_with_reasoning r).1 = []) := by
  refine ⟨by decide, by decide, ?_⟩
  intro r h
  simp [parse_plan_with_reasoning, h]

/-- Witness for the conditional part of the amended C4. -/
theorem C4_plan_parse_amended_witness :
    (parse_plan_with_reasoning "no marker here".data).1 = [] :=
  C4_plan_parse_amended.2.2 "no marker here".data (by decide)

def c5Tools : List Str := ["toolA".data]

/-- C5 counterexample: the execution phase special-cases only the
Direct[..] wrapper (line 613); Finish[42] is not recognised as a direct
answer — lacking parentheses it falls through to the
"工具调用格式错误" branch of _execute_tool. -/
theorem C5_finish_not_direct :
    classify_action c5Tools "Finish[42]".data = ActionKind.formatError ∧
    classify_action c5Tools "Finish[42]".data ≠
      ActionKind.direct "42".data := by
  constructor
  · decide
  · decide

lemma isDirectAction_wrapper (t : Str) :
    isDirectAction ("Direct[".data ++ t ++ "]".data) = true := by
  unfold isDirectAction
  have h1 : startsWithL ("Direct[".data ++ t ++ "]".data) "Direct[".data =
      true := by
    rw [List.append_assoc]
    exact startsWithL_append "Direct[".data (t ++ "]".data)
  have h2 : endsWithL ("Direct[".data ++ t ++ "]".data) "]".data = true := by
    have e : "Direct[".data ++ t ++ "]".data =
        ("Direct[".data ++ t) ++ [']'] := by simp
    rw [e]
    exact endsWithL_concat ("Direct[".data ++ t) ']'
  rw [h1, h2]
  rfl

lemma directText_wrapper (t : Str) :
    directText ("Direct[".data ++ t ++ "]".data) = stripPy t := by
  unfold directText sliceL
  have hlen : ("Direct[".data ++ t ++ "]".data).length = 8 + t.length := by
    simp
    omega
  rw [hlen]
  have e : "Direct[".data ++ t ++ "]".data =
      ("Direct[".data ++ t) ++ [']'] := by simp
  have htake : ("Direct[".data ++ t ++ "]".data).take (8 + t.length - 1) =
      "Direct[".data ++ t := by
    rw [e]
    have hl : ("Direct[".data ++ t).length = 8 + t.length - 1 := by
      simp
      omega
    rw [← hl]
    exact List.take_left _ _
  rw [htake]
  have hdrop : ("Direct[".data ++ t).drop 7 = t := by
    have hl : ("Direct[".data : Str).length = 7 := by decide
    rw [← hl]
    exact List.drop_left _ _
  rw [hdrop]

/-- C5 (amended: only the Direct[..] wrapper is classified as a direct
answer; Finish[..] is not special-cased by the execution phase): every
Direct[text] action is a direct answer with the wrapped text, and a
name(...) action is classified as a tool call on that name with the
parsed parameters, as on the spec example toolA with a quoted q. -/
theorem C5_action_classification_amended :
    (∀ tools : List Str, ∀ t : Str,
      classify_action tools ("Direct[".data ++ t ++ "]".data) =
        ActionKind.direct (stripPy t)) ∧
    classify_action c5Tools "toolA(q=\u0027hi\u0027)".data =
      ActionKind.toolCall "toolA".data [("q".data, "hi".data)] := by
  constructor
  · intro tools t
    unfold classify_action
    rw [isDirectAction_wrapper, directText_wrapper]
    rfl
  · decide

/-- Witness for the universal part of the amended C5 at a concrete text. -/
theorem C5_action_classification_amended_witness :
    classify_action [] ("Direct[".data ++ " 42 ".data ++ "]".data) =
      ActionKind.direct (stripPy " 42 ".data) :=
  C5_action_classification_amended.1 [] " 42 ".data

end QR

namespace QR

/-! ## The marker-stripping substitutions of _extract_final_answer
(lines 721-747) and _clean_final_answer (lines 1218-1246).

Each Python re.sub call is embedded as a matcher giving, at a text
position, the length of the leftmost match starting there plus the
replacement text; a fuel-driven scanner folds the matcher over the text
reproducing re.sub's leftmost, non-overlapping behaviour (every matcher
below matches at least one character, and the scanner consumes at least
one character of input per step, so fuel = length of the text is
exact). -/

/-- Generic re.sub scanner: at each position try the matcher; on a match
emit the replacement and continue after the matched text. -/
def subScan (matcher : Str → Option (Nat × Str)) : Nat → Str → Str
  | 0, s => s
  | _ + 1, [] => []
  | fuel + 1, c :: rest =>
    match matcher (c :: rest) with
    | some (L, rep) =>
      if L = 0 then c :: subScan matcher fuel rest
      else rep ++ subScan matcher fuel (rest.drop (L - 1))
    | none => c :: subScan matcher fuel rest

def applySub (matcher : Str → Option (Nat × Str)) (s : Str) : Str :=
  subScan matcher s.length s

/-- Length of the maximal whitespace run at the head of the text (the
greedy candidate for a \s* group). -/
def wsPrefixLen (t : Str) : Nat := (t.takeWhile isSpacePy).length

/-- Is the character at offset k a newline? -/
def nlAt (t : Str) (k : Nat) : Bool :=
  match t.drop k with
  | c :: _ => c = '\n'
  | [] => false

/-- Backtracking tail of the pattern  m\s*\n(.*?)\n\n  (DOTALL) after the
literal m: the greedy \s* consumes k characters (tried from the maximal
whitespace run downwards), the literal newline must follow, and the lazy
group runs to the first "\n\n" after it, which is included in the
match.  Returns the matched length within t. -/
def paraATailAux (t : Str) : Nat → Option Nat
  | 0 =>
    if nlAt t 0 then
      match findSubFrom t "\n\n".data 1 with
      | some p => some (p + 2)
      | none => none
    else none
  | k + 1 =>
    if nlAt t (k + 1) then
      match findSubFrom t "\n\n".data (k + 2) with
      | some p => some (p + 2)
      | none => paraATailAux t k
    else paraATailAux t k

/-- Matcher for  re.sub(m + r'\s*\n(.*?)\n\n', '', s, flags=re.DOTALL). -/
def paraAMatcher (m : Str) (s : Str) : Option (Nat × Str) :=
  if startsWithL s m then
    match paraATailAux (s.drop m.length) (wsPrefixLen (s.drop m.length)) with
    | some k => some (m.length + k, [])
    | none => none
  else none

/-- Matcher for  re.sub(m + r'.*?(?=\n\n|\Z)', '', s, flags=re.DOTALL):
the lazy group stops just before the first "\n\n" at or after the
marker, or at the end of the text; the lookahead text is not consumed. -/
def paraBMatcher (m : Str) (s : Str) : Option (Nat × Str) :=
  if startsWithL s m then
    match findSubFrom s "\n\n".data m.length with
    | some p => some (p, [])
    | none => some (s.length, [])
  else none

/-- Match length at a line start for  '^' + m + r'\s*.*$'  (MULTILINE, no
DOTALL): the greedy \s* may cross newlines; .* then runs to the end of
the current line, where $ always matches. -/
def lineStartMatchLen (m : Str) (s : Str) : Option Nat :=
  if startsWithL s m then
    let t := s.drop m.length
    let w := wsPrefixLen t
    let rest := t.drop w
    some (m.length + w + (rest.takeWhile (fun c => c ≠ '\n')).length)
  else none

/-- re.sub('^' + m + r'\s*.*$', '', s, flags=re.MULTILINE): a dedicated
scanner tracking whether the position is a line start (the anchor ^).
After a match the position sits at a line end, which is never a line
start. -/
def subLineStartAux (m : Str) : Nat → Bool → Str → Str
  | 0, _, s => s
  | _ + 1, _, [] => []
  | fuel + 1, atStart, c :: rest =>
    if atStart then
      match lineStartMatchLen m (c :: rest) with
      | some L =>
        if L = 0 then c :: subLineStartAux m fuel (c = '\n') rest
        else subLineStartAux m fuel false ((c :: rest).drop L)
      | none => c :: subLineStartAux m fuel (c = '\n') rest
    else c :: subLineStartAux m fuel (c = '\n') rest

def subLineStart (m : Str) (s : Str) : Str :=
  subLineStartAux m s.length true s

/-- Matcher for  re.sub('\n' + m + r'\s*.*$', '', s, flags=re.MULTILINE):
the leading newline is part of the match. -/
def afterNlMatcher (m : Str) (s : Str) : Option (Nat × Str) :=
  match s with
  | '\n' :: t =>
    if startsWithL t m then
      let t2 := t.drop m.length
      let w := wsPrefixLen t2
      let rest := t2.drop w
      some (1 + m.length + w + (rest.takeWhile (fun c => c ≠ '\n')).length, [])
    else none
  | _ => none

def ecMarker : Str := "Execution Complete:".data

def faMarker : Str := "Final Answer:".data

/-- Matcher for  re.sub(r'Execution Complete:.*?\n', '', s)  (no flags):
the lazy group cannot cross a newline, so the match runs to the first
newline after the marker and includes it; no newline, no match. -/
def ecNlMatcher (s : Str) : Option (Nat × Str) :=
  if startsWithL s ecMarker then
    let t := s.drop ecMarker.length
    let k := (t.takeWhile (fun c => c ≠ '\n')).length
    if k < t.length then some (ecMarker.length + k + 1, []) else none
  else none

/-- re.sub(r'^Final Answer:\s*', '', s)  without MULTILINE: the anchor
only matches at the very start of the text, so at most one removal. -/
def subFAStart (s : Str) : Str :=
  if startsWithL s faMarker then
    let t := s.drop faMarker.length
    t.drop (wsPrefixLen t)
  else s

/-- Matcher for  re.sub('\nFinal Answer:\s*', '\n', s): the match is
replaced by a single newline. -/
def faNlMatcher (s : Str) : Option (Nat × Str) :=
  match s with
  | '\n' :: t =>
    if startsWithL t faMarker then
      some (1 + faMarker.length + wsPrefixLen (t.drop faMarker.length), ['\n'])
    else none
  | _ => none

/-- The twelve marker-stripping substitutions shared by
_extract_final_answer (applied in source order, lines 721-747). -/
def clean_markers (s : Str) : Str :=
  let s1 := applySub (paraAMatcher planMarker) s
  let s2 := applySub (paraBMatcher planMarker) s1
  let s3 := applySub (paraAMatcher reasoningMarker) s2
  let s4 := applySub (paraBMatcher reasoningMarker) s3
  let s5 := subLineStart stepMarker s4
  let s6 := applySub (afterNlMatcher stepMarker) s5
  let s7 := subLineStart actionMarker s6
  let s8 := applySub (afterNlMatcher actionMarker) s7
  let s9 := subLineStart resultMarker s8
  let s10 := applySub (afterNlMatcher resultMarker) s9
  let s11 := applySub ecNlMatcher s10
  let s12 := subLineStart ecMarker s11
  subScan faNlMatcher (subFAStart s12).length (subFAStart s12)

/-- The span _extract_final_answer operates on: the text after Final
Answer: (preferred), else after Execution Complete: — where a Final
Answer: inside that remainder restarts the extraction, which the source
realises by a depth-one recursive call whose first branch then applies —
else the inside of a legacy Finish[...] wrapper when the bracket pair is
well ordered, else the whole response. -/
def extractSpan (response : Str) : Str :=
  if containsSub response faMarker then
    stripPy (afterFirst response faMarker)
  else if containsSub response ecMarker then
    (let p := stripPy (afterFirst response ecMarker)
     if containsSub p faMarker then stripPy (afterFirst p faMarker) else p)
  else if containsSub response "Finish[".data &&
      containsSub response "]".data then
    (let fs := idxOr0 response "Finish[".data + 7
     let fe := match rfindSub response "]".data with | some i => i | none => 0
     if fs < fe then stripPy (sliceL response fs fe) else response)
  else response

/-- Strip the markers from a span, then return the fixed fallback text
(处理完成, "processing complete") when nothing is left. -/
def finish_clean (span : Str) : Str :=
  let c := stripPy (clean_markers span)
  if c = [] then "处理完成".data else c

/-- _extract_final_answer. -/
def extract_final_answer (response : Str) : Str :=
  finish_clean (extractSpan response)

end QR

namespace QR

/-! Cross-validation of the embedded parsers against the source semantics
on a battery of inputs. -/

example : extract_final_answer "Plan:\n1. a\n\nReasoning: b\n\nFinal Answer: The result is 7".data = "The result is 7".data := by decide

example : extract_final_answer "Execution Complete: ok\nFinal Answer: seven".data = "seven".data := by decide

example : extract_final_answer "Execution Complete: done".data = "done".data := by decide

example : extract_final_answer "Finish[legacy]".data = "legacy".data := by decide

example : extract_final_answer "Final Answer:".data = "处理完成".data := by decide

example : extract_final_answer "no markers at all".data = "no markers at all".data := by decide

example : extract_final_answer "Final Answer: good\nPlan: x\nmore text".data = "good".data := by decide

example : extract_final_answer "Final Answer: a\nStep: s1\nAction: t()\nResult: r\nend".data = "a\n\n\n\nend".data := by decide

example : extract_final_answer "Final Answer: x\n\nReasoning:\n a\n b\n\nkeep".data = "x\n\nkeep".data := by decide

example : extract_final_answer "Execution Complete: mid\ntail\nFinal Answer: deep".data = "deep".data := by decide

example : extract_final_answer "Final Answer: one\nFinal Answer: two".data = "one\ntwo".data := by decide

example : extract_final_answer "Finish[a]b]c".data = "a]b".data := by decide

example : extract_final_answer "Finish[]".data = "Finish[]".data := by decide

example : extract_final_answer "Plan: solo".data = "处理完成".data := by decide

example : extract_final_answer "Final Answer: keep\nExecution Complete: z".data = "keep".data := by decide

example : extract_final_answer "Final Answer: keep Execution Complete: z\nnext".data = "keep next".data := by decide

example : extract_final_answer "Final Answer: A\nStep:\nspilled\nB".data = "A\n\nB".data := by decide

example : extract_final_answer "Final Answer: p\n  Step: indented\nq".data = "p\n  Step: indented\nq".data := by decide

example : extract_final_answer "Final Answer:   \n\n  ".data = "处理完成".data := by decide

example : extract_final_answer "Step: only steps\nAction: a()\nResult: r".data = "处理完成".data := by decide

example : extract_final_answer "Final Answer: x\rwindows\r\ny".data = "x\rwindows\r\ny".data := by decide

example : parse_complex_params "q=hi".data = [("q".data, "hi".data)] := by decide

example : parse_complex_params "q=\u0027hi\u0027".data = [("q".data, "hi".data)] := by decide

example : parse_complex_params "a=1, b=\"two words\"".data = [("a".data, "1".data), ("b".data, "two words".data)] := by decide

example : parse_complex_params "q=\u0027a,b\u0027, k=2".data = [("q".data, "a,b".data), ("k".data, "2".data)] := by decide

example : parse_complex_params "x".data = [] := by decide

example : parse_complex_params "  ".data = [] := by decide

example : parse_complex_params "a=1,,b=2".data = [("a".data, "1".data), ("b".data, "2".data)] := by decide

example : parse_complex_params "q=\u0027unclosed, b=2".data = [] := by decide

example : parse_complex_params "a = \u0027 spaced \u0027 , b=\"q\"".data = [("a".data, " spaced ".data), ("b".data, "q".data)] := by decide

example : parse_complex_params "k=\u0027\u0027, j=\"\"".data = [("k".data, "".data), ("j".data, "".data)] := by decide

example : parse_complex_params "a=1, a=2".data = [("a".data, "2".data)] := by decide

example : parse_complex_params "q=it\u0027s fine".data = [] := by decide

example : parse_plan_with_reasoning "Reasoning: r first\nPlan:\n1. x".data = (["x".data], "r first".data) := by decide

example : parse_plan_with_reasoning "Plan:\n1. -abc\n2. - def".data = (["-abc".data, "- def".data], "无详细推理".data) := by decide

example : parse_plan_with_reasoning "Plan:\n1.\n2.  ok".data = (["ok".data], "无详细推理".data) := by decide

example : parse_plan_with_reasoning "Plan: inline 1. q\n1. real".data = (["real".data], "无详细推理".data) := by decide

example : parse_plan_with_reasoning "Plan:\n1. a - b - c".data = (["a".data], "无详细推理".data) := by decide

example : parse_plan_with_reasoning "Reasoning: before Step: later\nPlan:\n1. s".data = (["s".data], "before".data) := by decide

example : parse_plan_with_reasoning "Plan:\n  3. indented".data = (["indented".data], "无详细推理".data) := by decide

example : parse_execution_step "Step: 1. do it\nAction: toolA(q=\u0027hi\u0027)\n".data = (some "1. do it".data, some "toolA(q=\u0027hi\u0027)".data) := by decide

example : parse_execution_step "Step: 1\nAction: toolA(q=hi)".data = (some "1".data, some "toolA(q=hi)".data) := by decide

example : parse_execution_step "Action: Direct[4]".data = (none, some "Direct[4]".data) := by decide

example : parse_execution_step "Step: only".data = (some "only".data, none) := by decide

example : parse_execution_step "nothing".data = (none, none) := by decide

example : parse_execution_step "Action: t()\nResult: done".data = (none, some "t()".data) := by decide

example : parse_execution_step "Result: r\nAction: after".data = (none, some "after".data) := by decide

example : parse_execution_step "Step: s\nmore\nAction:  padded  \nResult: z".data = (some "s\nmore".data, some "padded".data) := by decide

end QR

namespace QR

/-! ## Claim C6 -/

/-- The counterexample text for C6.  Its extracted span is
"abcReasoning:\nfoo\n\nStep: x", whose last line begins with Step:.
The Reasoning: removal is paragraph-shaped, not line-anchored: the
pattern starting at the mid-line Reasoning: consumes through the blank
line, splicing "abc" directly onto "Step: x", so the later line-anchored
Step: substitution no longer sees a line starting with Step:. -/
def c6Cex : Str := "Final Answer: abcReasoning:\nfoo\n\nStep: x".data

/-- C6 counterexample: a line of the extracted span beginning with Step:
survives extraction, contradicting the claim that every such line is
removed by line-anchored stripping. -/
theorem C6_marker_line_survives :
    extract_final_answer c6Cex = "abcStep: x".data ∧
    containsSub (extract_final_answer c6Cex) stepMarker = true := by
  constructor
  · decide
  · decide

def c6SpecExample : Str :=
  "Plan:\n1. a\n\nReasoning: b\n\nFinal Answer: The result is 7".data

def c6BothMarkers : Str := "Execution Complete: ok\nFinal Answer: seven".data

def c6EcOnly : Str := "Execution Complete: done".data

def c6FinishOnly : Str := "Finish[legacy]".data

/-- C6 (amended: Step:/Action:/Result: lines are stripped by line-anchored
substitutions, but Plan:/Reasoning: are removed as paragraphs — from any
occurrence of the marker, even mid-line, to the next blank line or the
end — which can also delete following non-marker lines and can splice
text so that a following marker line survives): the marker preference
order Final Answer: over Execution Complete: over Finish[...], the
fallback 处理完成 on an empty stripped result, and the spec example
yielding exactly "The result is 7". -/
theorem C6_final_answer_extraction_amended :
    extract_final_answer c6SpecExample = "The result is 7".data ∧
    extract_final_answer c6BothMarkers = "seven".data ∧
    extract_final_answer c6EcOnly = "done".data ∧
    extract_final_answer c6FinishOnly = "legacy".data ∧
    (∀ r : Str, stripPy (clean_markers (extractSpan r)) = [] →
      extract_final_answer r = "处理完成".data) := by
  refine ⟨by decide, by decide, by decide, by decide, ?_⟩
  intro r h
  simp [extract_final_answer, finish_clean, h]

/-- Witness for the fallback part of the amended C6. -/
theorem C6_final_answer_extraction_amended_witness :
    extract_final_answer "Final Answer:".data = "处理完成".data :=
  C6_final_answer_extraction_amended.2.2.2.2 "Final Answer:".data (by decide)

end QR

namespace QR

/-! ## The orchestrator run-loop (PlanningThenExecutionExecutor.ainvoke)

The generation model is the oracle llm : Nat → Str giving the text
returned by the k-th generation call of the run (call 0 is the planning
call); the prompts, which do not influence any observable, are not
modelled.  A tool invocation awaited through
asyncio.wait_for(mcp_server.call_tool_async(...), timeout=30.0) is the
oracle behaviour: either the awaited ToolResponse's result field (an
Option, since a failed call or a None-returning callable gives
result = None) or a timeout.  The stream callback is taken as present
(the claims quantify over runs given one); events are collected in
emission order. -/

inductive ToolBehavior where
  | returns (r : Option Str)
  | times_out

abbrev BehaviorOracle := Str → List (Str × Str) → ToolBehavior

/-- The behaviour realised by an actual MCP registry for a call that
completes within the timeout: the awaited ToolResponse's result field. -/
def mcpBehavior (st : RegState) : BehaviorOracle :=
  fun n p => ToolBehavior.returns (call_tool_async st n p).result

/-- Python \w-ish class of the user-id pattern: [a-zA-Z0-9_-]. -/
def isUserIdChar (c : Char) : Bool :=
  (97 ≤ c.toNat && c.toNat ≤ 122) || (65 ≤ c.toNat && c.toNat ≤ 90) ||
  (48 ≤ c.toNat && c.toNat ≤ 57) || c = '_' || c = '-'

def userIdMarker : Str := "当前用户ID:".data

/-- re.search(r'当前用户ID:\s*([a-zA-Z0-9_-]+)', user_input): at the
first position where the literal marker is followed (after greedy
whitespace) by at least one id character, the maximal id run is the
captured group. -/
def extract_user_id : Str → Option Str
  | [] => none
  | c :: rest =>
    if startsWithL (c :: rest) userIdMarker then
      (let t := ((c :: rest).drop userIdMarker.length).dropWhile isSpacePy
       let run := t.takeWhile isUserIdChar
       if run = [] then extract_user_id rest else some run)
    else extract_user_id rest

def svbvName : Str := "search_video_by_vector".data

/-- The parameter map passed to the registry by _execute_tool: the parsed
parameters, with the extracted user id injected for
search_video_by_vector when the model did not supply user_id (the
injection only happens when a user id was extracted — state.get
followed by a truthiness test). -/
def tool_call_params (uid : Option Str) (tool_name : Str) (action_str : Str) :
    List (Str × Str) :=
  let tne := idxOr0 action_str lparenStr
  let params := parse_complex_params
    (stripPy (sliceL action_str (tne + 1) (action_str.length - 1)))
  if tool_name = svbvName ∧ assocLookup params "user_id".data = none then
    match uid with
    | some u => assocSet params "user_id".data u
    | none => params
  else params

/-- The tool name extracted by _execute_tool: the stripped text before the
first "(". -/
def toolNameOf (action_str : Str) : Str :=
  stripPy (action_str.take (idxOr0 action_str lparenStr))

/-- _execute_tool (lines 838-908).  Returns the Python value of the
method: a string for the malformed/unknown/timeout branches, the awaited
result field otherwise — which is none exactly when the MCP call failed
or the callable returned None, the case whose logging later raises.
The method's own try/except never fires in this model since no modelled
operation inside it raises. -/
def execute_tool (tools : List Str) (behavior : BehaviorOracle)
    (uid : Option Str) (action_str : Str) : Option Str :=
  if containsSub action_str lparenStr && containsSub action_str rparenStr then
    (let tool_name := toolNameOf action_str
     if tools.contains tool_name = false then
       some ("未知工具: ".data ++ tool_name)
     else
       match behavior tool_name (tool_call_params uid tool_name action_str) with
       | ToolBehavior.times_out => some ("工具调用超时: ".data ++ tool_name)
       | ToolBehavior.returns r => r)
  else some "工具调用格式错误".data

/-- The value recorded for a step whose action parsed: the Direct[..] text,
or the _execute_tool value of the (possibly normalised) action. -/
def stepRecorded (tools : List Str) (behavior : BehaviorOracle)
    (uid : Option Str) (a : Str) : Option Str :=
  if isDirectAction a then some (directText a)
  else execute_tool tools behavior uid (normalizeAction tools a)

/-- The action recorded value of the call at index cI, when its response
parses on the first attempt; none when the response does not parse or the
recorded value is Python None. -/
def stepValue (tools : List Str) (behavior : BehaviorOracle)
    (uid : Option Str) (llm : Nat → Str) (cI : Nat) : Option Str :=
  match (parse_execution_step (llm cI)).2 with
  | some a => stepRecorded tools behavior uid a
  | none => none

/-- The stream events of ainvoke (payload fields as emitted). -/
inductive Event where
  | planning_start
  | planning_complete (plan : List Str) (reasoning : Str)
  | execution_start (total_steps : Nat)
  | step_start (step_number : Nat) (step_description : Str) (total_steps : Nat)
  | step_complete (step_number : Nat)
  | complete (final_answer : Str)
  | error (msg : Str)
deriving DecidableEq

/-- str(e) for the TypeError raised by the diagnostic log line 653
(tool_result[:100] with tool_result = None). -/
def noneSubscriptError : Str :=
  "'NoneType' object is not subscriptable".data

/-- Outcome of the execution loop: events and recorded results in order,
the next unused llm call index, and the pending exception if the loop
raised. -/
structure StepsOut where
  events : List Event
  results : List (Nat × Option Str)
  next : Nat
  err : Option Str
deriving DecidableEq

/-- The per-step loop of _execution_phase (lines 554-662) over the plan
list, with n the 1-based step number and cI the next llm call index.
Per step: emit step_start; parse the response; on a parse failure
re-prompt once and re-parse, a second failure skipping the step via
continue (which also bypasses the max_steps break); a Direct[..] action
records its text; otherwise the possibly-normalised action goes to
_execute_tool, the value is recorded and step_complete emitted, after
which the diagnostic log of line 653 raises TypeError when the value is
Python None, aborting the loop; finally the loop breaks once the step
number reaches max_steps. -/
def runSteps (tools : List Str) (behavior : BehaviorOracle) (uid : Option Str)
    (llm : Nat → Str) (maxSteps total : Nat) :
    List Str → Nat → Nat → StepsOut
  | [], _, cI => { events := [], results := [], next := cI, err := none }
  | d :: rest, n, cI =>
    match (parse_execution_step (llm cI)).2 with
    | none =>
      (match (parse_execution_step (llm (cI + 1))).2 with
       | none =>
         -- step skipped: only step_start was emitted; continue re-enters
         -- the loop without reaching the max_steps break
         let so := runSteps tools behavior uid llm maxSteps total rest
           (n + 1) (cI + 2)
         { so with events := Event.step_start n d total :: so.events }
       | some a =>
         -- recovery parse succeeded: the step consumed two llm calls
         match stepRecorded tools behavior uid a with
         | none =>
           { events := [Event.step_start n d total, Event.step_complete n],
             results := [(n, none)], next := cI + 2,
             err := some noneSubscriptError }
         | some v =>
           if maxSteps ≤ n then
             { events := [Event.step_start n d total, Event.step_complete n],
               results := [(n, some v)], next := cI + 2, err := none }
           else
             let so := runSteps tools behavior uid llm maxSteps total rest
               (n + 1) (cI + 2)
             { events := Event.step_start n d total :: Event.step_complete n ::
                 so.events,
               results := (n, some v) :: so.results, next := so.next,
               err := so.err })
    | some a =>
      match stepRecorded tools behavior uid a with
      | none =>
        -- a Direct[..] action always records its text, so the none case is
        -- exactly a tool path whose awaited result field was Python None:
        -- step_complete is emitted, then the f-string of the diagnostic
        -- log line 653 raises TypeError, aborting _execution_phase
        { events := [Event.step_start n d total, Event.step_complete n],
          results := [(n, none)], next := cI + 1,
          err := some noneSubscriptError }
      | some v =>
        if maxSteps ≤ n then
          -- the break of lines 660-662
          { events := [Event.step_start n d total, Event.step_complete n],
            results := [(n, some v)], next := cI + 1, err := none }
        else
          let so := runSteps tools behavior uid llm maxSteps total rest
            (n + 1) (cI + 1)
          { events := Event.step_start n d total :: Event.step_complete n ::
              so.events,
            results := (n, some v) :: so.results, next := so.next,
            err := so.err }

/-- The observable outcome of one ainvoke run: events in emission order,
the returned output string, the recorded per-step results
(execution_state["results"]), and the number of generation calls made. -/
structure RunOut where
  events : List Event
  output : Str
  results : List (Nat × Option Str)
  calls : Nat
deriving DecidableEq

def planFailOutput : Str := "无法生成有效的执行计划，请重试。".data

def errorOutput (e : Str) : Str :=
  "执行过程中发生错误: ".data ++ e ++ "。请稍后重试。".data

/-- PlanningThenExecutionExecutor.ainvoke with a stream callback: emit
planning_start; one planning call parsed by
_parse_plan_with_reasoning; zero steps return the failure output with no
further event; otherwise planning_complete and execution_start precede
the execution loop, an exception escaping the loop is caught at the
ainvoke boundary emitting error and returning the error output, and a
normal finish makes one summary call, extracts the final answer, emits
complete and returns it. -/
def primary_ainvoke (maxSteps : Nat) (tools : List Str)
    (behavior : BehaviorOracle) (llm : Nat → Str) (userInput : Str) :
    RunOut :=
  let uid := extract_user_id userInput
  let pr := parse_plan_with_reasoning (llm 0)
  if pr.1 = [] then
    { events := [Event.planning_start], output := planFailOutput,
      results := [], calls := 1 }
  else
    let so := runSteps tools behavior uid llm maxSteps pr.1.length pr.1 1 1
    let pre := [Event.planning_start, Event.planning_complete pr.1 pr.2,
      Event.execution_start pr.1.length]
    match so.err with
    | some e =>
      { events := pre ++ so.events ++ [Event.error e],
        output := errorOutput e, results := so.results, calls := so.next }
    | none =>
      let fin := extract_final_answer (llm so.next)
      { events := pre ++ so.events ++ [Event.complete fin], output := fin,
        results := so.results, calls := so.next + 1 }

end QR

namespace QR

/-! ## Claims C1 and C2 -/

/-- The end-to-end scenario of the specification: a direct-answer run. -/
def e2eLlm : Nat → Str := fun n =>
  match n with
  | 0 => "Plan:\n1. answer directly\nReasoning: trivial".data
  | 1 => "Step: 1\nAction: Direct[4]".data
  | _ => "Final Answer: 4".data

example :
    primary_ainvoke 10 [] (fun _ _ => ToolBehavior.times_out) e2eLlm [] =
      { events := [Event.planning_start,
          Event.planning_complete ["answer directly".data] "trivial".data,
          Event.execution_start 1,
          Event.step_start 1 "answer directly".data 1,
          Event.step_complete 1,
          Event.complete "4".data],
        output := "4".data,
        results := [(1, some "4".data)], calls := 3 } := by decide

/-- A registry with one tool whose callable raises: the MCP layer wraps
the exception as ToolResponse(success=False, result=None). -/
def c1State : RegState :=
  [("toolA".data,
    { func := fun _ => Except.error "boom".data,
      definition := { name := "toolA".data, description := [],
                      parameters := [], returns := [], tags := [] } })]

def c1Llm : Nat → Str := fun n =>
  match n with
  | 0 => "Plan:\n1. use the tool - toolA\nReasoning: call it".data
  | 1 => "Step: 1\nAction: toolA(q=hi)".data
  | _ => [] 

/-- C1 failing run: the plan has one step, its response parses on the
first attempt, and the tool invocation fails at the MCP layer (the
callable raises, so the awaited ToolResponse is success=False with
result=None).  _execute_tool returns that None result field, the step
records it and step_complete is emitted, and then the diagnostic
f-string tool_result[:100] of line 653 raises TypeError: the run emits
error instead of complete, refuting invariance of the event sequence
under tool failure.  (Per spec section 7 a tool failure is meant to be
non-fatal — the very next line even scans the result string for failure
markers — so the claim captures the intent and the logging slice is the
slip.) -/
theorem C1_tool_failure_aborts_run :
    primary_ainvoke 10 ["toolA".data] (mcpBehavior c1State) c1Llm "hi".data =
      { events := [Event.planning_start,
          Event.planning_complete ["use the tool".data] "call it".data,
          Event.execution_start 1,
          Event.step_start 1 "use the tool".data 1,
          Event.step_complete 1,
          Event.error noneSubscriptError],
        output := errorOutput noneSubscriptError,
        results := [(1, none)], calls := 2 } ∧
    (primary_ainvoke 10 ["toolA".data] (mcpBehavior c1State) c1Llm
        "hi".data).events.all
      (fun e => match e with
        | Event.complete _ => false
        | _ => true) = true := by
  constructor
  · decide
  · decide

def c2Llm : Nat → Str := fun _ => "no plan here".data

/-- C2 counterexample: on a run whose planning extracts zero steps the
code returns the failure message directly (line 468) without emitting
any error event — the only event of the run is planning_start — so the
claim's "emits an error event" is false. -/
theorem C2_zero_steps_no_error_event :
    primary_ainvoke 10 [] (fun _ _ => ToolBehavior.times_out) c2Llm [] =
      { events := [Event.planning_start], output := planFailOutput,
        results := [], calls := 1 } ∧
    (primary_ainvoke 10 [] (fun _ _ => ToolBehavior.times_out) c2Llm
        []).events.all
      (fun e => match e with
        | Event.error _ => false
        | _ => true) = true := by
  constructor
  · decide
  · decide

/-- C2 (amended: with zero extracted steps the orchestrator makes exactly
one planning call, no retry, returns the user-facing failure message,
and emits no further event at all — no error, planning_complete,
execution_start, step or complete event; nothing records a failed
status): for every oracle and configuration. -/
theorem C2_zero_steps_behavior (maxSteps : Nat) (tools : List Str)
    (behavior : BehaviorOracle) (llm : Nat → Str) (input : Str)
    (h : (parse_plan_with_reasoning (llm 0)).1 = []) :
    primary_ainvoke maxSteps tools behavior llm input =
      { events := [Event.planning_start], output := planFailOutput,
        results := [], calls := 1 } := by
  simp [primary_ainvoke, h]

/-- Witness for the amended C2. -/
theorem C2_zero_steps_behavior_witness :
    primary_ainvoke 10 [] (fun _ _ => ToolBehavior.times_out) c2Llm [] =
      { events := [Event.planning_start], output := planFailOutput,
        results := [], calls := 1 } :=
  C2_zero_steps_behavior 10 [] (fun _ _ => ToolBehavior.times_out) c2Llm []
    (by decide)

end QR

namespace QR

/-! ## Claim C7: trace lemma and timeout handling -/

lemma startsWithL_iff (s p : Str) : startsWithL s p = true ↔ p <+: s := by
  induction p generalizing s with
  | nil =>
    cases s with
    | nil => simp [startsWithL]
    | cons c t => simp [startsWithL]
  | cons d p ih =>
    cases s with
    | nil => simp [startsWithL]
    | cons c t =>
      simp only [startsWithL, Bool.and_eq_true, List.cons_prefix_cons, ih]
      constructor
      · rintro ⟨h1, h2⟩
        exact ⟨by simpa [eq_comm] using h1, h2⟩
      · rintro ⟨h1, h2⟩
        exact ⟨by simp [h1], h2⟩

lemma findSubAux_isSome_iff (sub s : Str) (i : Nat) :
    (findSubAux sub s i).isSome = true ↔ sub <:+: s := by
  induction s generalizing i with
  | nil =>
    by_cases hsub : sub = []
    · simp [findSubAux, hsub]
    · simp [findSubAux, hsub, List.infix_nil]
  | cons c t ih =>
    simp only [findSubAux]
    by_cases hs : startsWithL (c :: t) sub = true
    · rw [if_pos hs]
      simp only [Option.isSome_some, true_iff]
      exact ((startsWithL_iff _ _).mp hs).isInfix
    · rw [if_neg hs]
      rw [ih (i + 1)]
      rw [List.infix_cons_iff]
      constructor
      · exact fun h => Or.inr h
      · rintro (h | h)
        · exact absurd ((startsWithL_iff _ _).mpr h) hs
        · exact h

/-- The executable substring test agrees with list-infix containment. -/
lemma containsSub_iff (s sub : Str) : containsSub s sub = true ↔ sub <:+: s :=
  findSubAux_isSome_iff sub s 0

end QR

namespace QR

/-- Expected events of a run of the execution loop with no parse failure
and no abort: step_start then step_complete for each step in order. -/
def expEvents (total : Nat) : Nat → List Str → List Event
  | _, [] => []
  | n, d :: r =>
    Event.step_start n d total :: Event.step_complete n :: expEvents total (n + 1) r

/-- Expected recorded results of such a run. -/
def expResults (tools : List Str) (behavior : BehaviorOracle)
    (uid : Option Str) (llm : Nat → Str) : Nat → Nat → List Str →
    List (Nat × Option Str)
  | _, _, [] => []
  | n, cI, _ :: r =>
    (n, stepValue tools behavior uid llm cI) ::
      expResults tools behavior uid llm (n + 1) (cI + 1) r

/-- Execution-loop trace lemma: when every pending step's response parses
on the first attempt with a recorded value that is not Python None, and
the step numbers stay within max_steps, the loop emits exactly
step_start/step_complete per step, records the step values in order,
consumes one generation call per step, and raises nothing. -/
lemma runSteps_good (tools : List Str) (behavior : BehaviorOracle)
    (uid : Option Str) (llm : Nat → Str) (maxSteps total : Nat) :
    ∀ (rest : List Str) (n cI : Nat),
    (∀ k, k < rest.length → stepValue tools behavior uid llm (cI + k) ≠ none) →
    n + rest.length ≤ maxSteps + 1 →
    runSteps tools behavior uid llm maxSteps total rest n cI =
      { events := expEvents total n rest,
        results := expResults tools behavior uid llm n cI rest,
        next := cI + rest.length, err := none } := by
  intro rest
  induction rest with
  | nil =>
    intro n cI _ _
    simp [runSteps, expEvents, expResults]
  | cons d r ih =>
    intro n cI hg hb
    have h0 : stepValue tools behavior uid llm cI ≠ none := by
      have := hg 0 (by simp)
      simpa using this
    cases hpa : (parse_execution_step (llm cI)).2 with
    | none =>
      exact absurd (by simp [stepValue, hpa]) h0
    | some a =>
      cases hv : stepRecorded tools behavior uid a with
      | none =>
        exact absurd (by simp [stepValue, hpa, hv]) h0
      | some v =>
        have hval : stepValue tools behavior uid llm cI = some v := by
          simp [stepValue, hpa, hv]
        simp only [runSteps, hpa, hv]
        by_cases hbreak : maxSteps ≤ n
        · have hr : r = [] := by
            have : n + (d :: r).length ≤ maxSteps + 1 := hb
            simp only [List.length_cons] at this
            have : r.length = 0 := by omega
            exact List.length_eq_zero.mp this
          subst hr
          simp [expEvents, expResults, hval, hbreak]
        · rw [if_neg hbreak]
          have hg' : ∀ k, k < r.length →
              stepValue tools behavior uid llm (cI + 1 + k) ≠ none := by
            intro k hk
            have := hg (k + 1) (by simp; omega)
            have e : cI + (k + 1) = cI + 1 + k := by omega
            rwa [e] at this
          have hb' : n + 1 + r.length ≤ maxSteps + 1 := by
            simp only [List.length_cons] at hb
            omega
          rw [ih (n + 1) (cI + 1) hg' hb']
          simp only [expEvents, expResults, hval, List.length_cons]
          have e : cI + 1 + r.length = cI + (r.length + 1) := by omega
          rw [e]

end QR

namespace QR

lemma normalizeAction_id (tools : List Str) (a : Str)
    (h1 : containsSub a lparenStr = true)
    (h2 : containsSub a rparenStr = true) :
    normalizeAction tools a = a := by
  simp [normalizeAction, h1, h2]

lemma execute_tool_timeout (tools : List Str) (behavior : BehaviorOracle)
    (uid : Option Str) (a : Str)
    (h1 : containsSub a lparenStr = true)
    (h2 : containsSub a rparenStr = true)
    (hreg : tools.contains (toolNameOf a) = true)
    (ht : behavior (toolNameOf a) (tool_call_params uid (toolNameOf a) a) =
      ToolBehavior.times_out) :
    execute_tool tools behavior uid a =
      some ("工具调用超时: ".data ++ toolNameOf a) := by
  have hmem : toolNameOf a ∈ tools := by simpa using hreg
  simp [execute_tool, h1, h2, hmem, ht]

lemma expResults_get (tools : List Str) (behavior : BehaviorOracle)
    (uid : Option Str) (llm : Nat → Str) :
    ∀ (l : List Str) (n cI k : Nat), k < l.length →
    (expResults tools behavior uid llm n cI l).get? k =
      some (n + k, stepValue tools behavior uid llm (cI + k)) := by
  intro l
  induction l with
  | nil =>
    intro n cI k hk
    simp at hk
  | cons d r ih =>
    intro n cI k hk
    cases k with
    | zero => simp [expResults]
    | succ k' =>
      have hk' : k' < r.length := by simpa using hk
      have := ih (n + 1) (cI + 1) k' hk'
      simp only [expResults, List.get?_cons_succ, this]
      have e1 : n + 1 + k' = n + (k' + 1) := by omega
      have e2 : cI + 1 + k' = cI + (k' + 1) := by omega
      rw [e1, e2]

/-- C7: in a run whose plan has between 1 and max_steps steps, whose every
step response parses on the first attempt with a non-None recorded
value, and whose step j is a tool call that times out, the recorded
result of step j is the timeout string naming the tool (containing the
timeout indicator 超时 and the tool name), the run is not aborted — all
steps emit step_start and step_complete, the run reaches complete and
returns the extracted final answer. -/
theorem C7_timeout_nonfatal
    (maxSteps : Nat) (tools : List Str) (behavior : BehaviorOracle)
    (llm : Nat → Str) (input : Str) (steps : List Str) (reasoning : Str)
    (j : Nat) (a : Str)
    (hplan : parse_plan_with_reasoning (llm 0) = (steps, reasoning))
    (hne : steps ≠ [])
    (hNm : steps.length ≤ maxSteps)
    (hg : ∀ k, k < steps.length →
      stepValue tools behavior (extract_user_id input) llm (1 + k) ≠ none)
    (hj : j < steps.length)
    (hpa : (parse_execution_step (llm (1 + j))).2 = some a)
    (hnd : isDirectAction a = false)
    (hp1 : containsSub a lparenStr = true)
    (hp2 : containsSub a rparenStr = true)
    (hreg : tools.contains (toolNameOf a) = true)
    (ht : behavior (toolNameOf a)
        (tool_call_params (extract_user_id input) (toolNameOf a) a) =
      ToolBehavior.times_out) :
    primary_ainvoke maxSteps tools behavior llm input =
      { events := Event.planning_start ::
          Event.planning_complete steps reasoning ::
          Event.execution_start steps.length ::
          (expEvents steps.length 1 steps ++
            [Event.complete (extract_final_answer (llm (1 + steps.length)))]),
        output := extract_final_answer (llm (1 + steps.length)),
        results :=
          expResults tools behavior (extract_user_id input) llm 1 1 steps,
        calls := steps.length + 2 } ∧
    (expResults tools behavior (extract_user_id input) llm 1 1 steps).get?
        j = some (1 + j, some ("工具调用超时: ".data ++ toolNameOf a)) ∧
    containsSub ("工具调用超时: ".data ++ toolNameOf a) "超时".data = true ∧
    containsSub ("工具调用超时: ".data ++ toolNameOf a) (toolNameOf a) =
      true := by
  have hso := runSteps_good tools behavior (extract_user_id input) llm
    maxSteps steps.length steps 1 1 hg (by omega)
  refine ⟨?_, ?_, ?_, ?_⟩
  · simp only [primary_ainvoke, hplan]
    rw [if_neg hne]
    simp only [hso]
    simp only [List.cons_append, List.nil_append, RunOut.mk.injEq]
    refine ⟨trivial, trivial, trivial, by omega⟩
  · have hsv : stepValue tools behavior (extract_user_id input) llm (1 + j) =
        some ("工具调用超时: ".data ++ toolNameOf a) := by
      simp only [stepValue, hpa, stepRecorded, hnd]
      rw [if_neg (by simp [hnd])]
      rw [normalizeAction_id tools a hp1 hp2]
      exact execute_tool_timeout tools behavior (extract_user_id input) a
        hp1 hp2 hreg ht
    have := expResults_get tools behavior (extract_user_id input) llm steps
      1 1 j hj
    rw [this, hsv]
  · rw [containsSub_iff]
    have h1 : ("超时".data : Str) <:+: "工具调用超时: ".data := by decide
    exact h1.trans ((List.prefix_append _ _).isInfix)
  · rw [containsSub_iff]
    exact (List.suffix_append _ _).isInfix

end QR

namespace QR

def c7Llm : Nat → Str := fun n =>
  match n with
  | 0 => "Plan:\n1. call tool - toolA\n2. wrap up".data
  | 1 => "Step: 1\nAction: toolA(q=hi)".data
  | 2 => "Step: 2\nAction: Direct[fine]".data
  | _ => "Final Answer: done".data

/-- Witness for C7: a two-step run whose first step's tool call times out
and whose second step answers directly. -/
theorem C7_timeout_nonfatal_witness :
    primary_ainvoke 3 ["toolA".data] (fun _ _ => ToolBehavior.times_out)
        c7Llm [] =
      { events := Event.planning_start ::
          Event.planning_complete ["call tool".data, "wrap up".data]
            "无详细推理".data ::
          Event.execution_start 2 ::
          (expEvents 2 1 ["call tool".data, "wrap up".data] ++
            [Event.complete (extract_final_answer (c7Llm 3))]),
        output := extract_final_answer (c7Llm 3),
        results := expResults ["toolA".data]
          (fun _ _ => ToolBehavior.times_out) (extract_user_id []) c7Llm 1 1
          ["call tool".data, "wrap up".data],
        calls := 4 } ∧
    (expResults ["toolA".data] (fun _ _ => ToolBehavior.times_out)
        (extract_user_id []) c7Llm 1 1
        ["call tool".data, "wrap up".data]).get? 0 =
      some (1, some ("工具调用超时: ".data ++
        toolNameOf "toolA(q=hi)".data)) ∧
    containsSub ("工具调用超时: ".data ++ toolNameOf "toolA(q=hi)".data)
      "超时".data = true ∧
    containsSub ("工具调用超时: ".data ++ toolNameOf "toolA(q=hi)".data)
      (toolNameOf "toolA(q=hi)".data) = true :=
  C7_timeout_nonfatal 3 ["toolA".data] (fun _ _ => ToolBehavior.times_out)
    c7Llm [] ["call tool".data, "wrap up".data] "无详细推理".data 0
    "toolA(q=hi)".data (by decide) (by decide) (by decide) (by decide)
    (by decide) (by decide) (by decide) (by decide) (by decide) (by decide)
    rfl

end QR

namespace QR

/-! ## The fallback orchestrator
(FallbackPlanningThenExecutionExecutor, lines 969-1249)

Here the generation oracle is Except-valued: an Except.error stands for
the generate_async call raising, which the fallback's outer try converts
into the fixed apology output.  Registry calls go through the call_tool
model and never raise. -/

/-- Backtracking for the second \s*\n of  re.sub(r'\n\s*\n\s*\n', '\n\n'):
within u, the greedy \s* consumes k characters followed by a newline. -/
def collapseK2 (u : Str) : Nat → Option Nat
  | 0 => if nlAt u 0 then some 1 else none
  | k + 1 => if nlAt u (k + 1) then some (k + 2) else collapseK2 u k

/-- Backtracking for the first \s*\n after the leading newline: try the
greedy k first, and for each candidate second newline try the second
group; on failure back off. -/
def collapseK1 (t : Str) : Nat → Option Nat
  | 0 =>
    if nlAt t 0 then
      match collapseK2 (t.drop 1) (wsPrefixLen (t.drop 1)) with
      | some L2 => some (1 + L2)
      | none => none
    else none
  | k + 1 =>
    if nlAt t (k + 1) then
      match collapseK2 (t.drop (k + 2)) (wsPrefixLen (t.drop (k + 2))) with
      | some L2 => some (k + 2 + L2)
      | none => collapseK1 t k
    else collapseK1 t k

/-- Matcher for  re.sub(r'\n\s*\n\s*\n', '\n\n', s)  (line 1246). -/
def collapseMatcher (s : Str) : Option (Nat × Str) :=
  match s with
  | '\n' :: t =>
    (match collapseK1 t (wsPrefixLen t) with
     | some L => some (1 + L, "\n\n".data)
     | none => none)
  | _ => none

/-- _clean_final_answer: the twelve marker substitutions of the primary
extractor, then the blank-run collapse, then strip — with no fallback
text for an empty result. -/
def clean_final_answer (response : Str) : Str :=
  stripPy (applySub collapseMatcher (clean_markers response))

/-- The fallback's reasoning extraction (lines 1039-1045): from
Reasoning: to the next blank line, or to the end. -/
def fbReasoning (response : Str) : Str :=
  if containsSub response reasoningMarker then
    (let rs := idxOr0 response reasoningMarker + 10
     match findSubFrom response "\n\n".data rs with
     | some p => stripPy (sliceL response rs p)
     | none => stripPy (response.drop rs))
  else "无详细推理".data

/-- One plan line of the fallback (lines 1056-1059): the stripped line
must start with an ordinal 1. to 5.; the step text is everything after
the first dot of the unstripped line, stripped — with no hyphen
handling and no emptiness check. -/
def fbOrdinalLine (line : Str) : Option Str :=
  if ordinalStarts.any (fun p => startsWithL (stripPy line) p) then
    some (stripPy (afterFirstChar '.' line))
  else none

/-- The fallback's plan extraction (lines 1047-1059): the text between
Plan: and Reasoning: (or the end), stripped, split into lines. -/
def fbPlan (response : Str) : List Str :=
  if containsSub response planMarker then
    (let ps := idxOr0 response planMarker + 5
     let pe := if containsSub response reasoningMarker then
         idxOr0 response reasoningMarker
       else response.length
     (splitOnChar '\n' (stripPy (sliceL response ps pe))).filterMap
       fbOrdinalLine)
  else []

/-- step_response.split(name + "(")[1].split(")")[0]  (lines 1123-1125):
the segment between the first and second occurrence of name( — or to
the end — cut at the first closing paren. -/
def fb_call_str (n resp : Str) : Str :=
  let sep := n ++ lparenStr
  let afterx := afterFirst resp sep
  let seg := match findSub afterx sep with
    | some i => afterx.take i
    | none => afterx
  seg.takeWhile (fun c => c ≠ ')')

/-- The fallback's parameter parsing (lines 1127-1137): split on commas,
split each token on its first =, strip the value of spaces and quotes,
and inject the extracted user id for search_video_by_vector when
user_id is absent. -/
def fb_params (uid : Option Str) (n call_str : Str) : List (Str × Str) :=
  let base :=
    if stripPy call_str = [] then []
    else
      (splitOnChar ',' call_str).foldl
        (fun acc param =>
          if containsSub param "=".data then
            assocSet acc (stripPy (param.takeWhile (fun c => c ≠ '=')))
              (stripSet [' ', dquoteChar, quoteChar] (afterFirstChar '=' param))
          else acc) []
  if n = svbvName ∧ assocLookup base "user_id".data = none then
    match uid with
    | some u => assocSet base "user_id".data u
    | none => base
  else base

structure FBStepsOut where
  events : List Event
  failed : Bool
deriving DecidableEq

/-- The fallback's step loop (lines 1082-1176): one generation call per
step (its raising aborts the run), then simplified tool-name matching —
the first registered name occurring as a substring of the response is
invoked through the registry when name( also occurs (emitting
step_complete); a name without name( does nothing for the step (no
step_complete); no matching name is a direct answer (step_complete).
The tool response only feeds the execution history, which no observable
depends on. -/
def fallback_steps (st : RegState) (names : List Str) (uid : Option Str)
    (llm : Nat → Except Str Str) (total : Nat) :
    List Str → Nat → FBStepsOut
  | [], _ => { events := [], failed := false }
  | d :: rest, k =>
    match llm k with
    | Except.error _ =>
      { events := [Event.step_start k d total], failed := true }
    | Except.ok resp =>
      let evs :=
        match names.find? (fun n => containsSub resp n) with
        | some n =>
          if containsSub resp (n ++ lparenStr) then
            let _ := call_tool_async st n
              (fb_params uid n (fb_call_str n resp))
            [Event.step_start k d total, Event.step_complete k]
          else [Event.step_start k d total]
        | none => [Event.step_start k d total, Event.step_complete k]
      let so := fallback_steps st names uid llm total rest (k + 1)
      { events := evs ++ so.events, failed := so.failed }

structure FallOut where
  events : List Event
  output : Str
deriving DecidableEq

lemma FallOut_output_mk (E : List Event) (o : Str) :
    (FallOut.mk E o).output = o := rfl

def fallbackApology : Str :=
  "系统在处理您的请求时遇到技术问题，请稍后重试。".data

/-- The events emitted before and during the fallback's step loop:
planning_start, planning_complete, execution_start only for a nonempty
plan, then the loop's events. -/
def fallback_run_events (st : RegState) (llm : Nat → Except Str Str)
    (input : Str) (resp : Str) : List Event :=
  Event.planning_start ::
    Event.planning_complete (fbPlan resp) (fbReasoning resp) ::
    ((if fbPlan resp = [] then []
      else [Event.execution_start (fbPlan resp).length]) ++
     (fallback_steps st (st.map Prod.fst) (extract_user_id input) llm
       (fbPlan resp).length (fbPlan resp) 1).events)

/-- FallbackPlanningThenExecutionExecutor.ainvoke with a stream callback:
planning_start, one planning call (raising gives the apology),
planning_complete, execution_start only for a nonempty plan, the step
loop, one summary call, and the cleaned final answer — any generation
failure inside the try yielding the fixed apology instead. -/
def fallback_ainvoke (st : RegState) (llm : Nat → Except Str Str)
    (input : Str) : FallOut :=
  match llm 0 with
  | Except.error _ =>
    { events := [Event.planning_start], output := fallbackApology }
  | Except.ok resp =>
    if (fallback_steps st (st.map Prod.fst) (extract_user_id input) llm
        (fbPlan resp).length (fbPlan resp) 1).failed then
      { events := fallback_run_events st llm input resp,
        output := fallbackApology }
    else
      match llm ((fbPlan resp).length + 1) with
      | Except.error _ =>
        { events := fallback_run_events st llm input resp,
          output := fallbackApology }
      | Except.ok fin =>
        { events := fallback_run_events st llm input resp,
          output := clean_final_answer fin }

end QR

namespace QR

/-! Cross-validation of the fallback helper functions. -/

example : clean_final_answer "".data = "".data := by decide

example : clean_final_answer "a\n\n\nb".data = "a\n\nb".data := by decide

example : clean_final_answer "a\n\n\n\nb".data = "a\n\nb".data := by decide

example : clean_final_answer "a\n \n\t\nb".data = "a\n\nb".data := by decide

example : clean_final_answer "a\n\nb\n\nc".data = "a\n\nb\n\nc".data := by decide

example : clean_final_answer "x\n\n\ny\n\n\nz".data = "x\n\ny\n\nz".data := by decide

example : clean_final_answer "Final Answer: v\nStep: s\nmid\n\n\n\nend".data = "v\n\nmid\n\nend".data := by decide

example : clean_final_answer "one\n\n  \n \n two".data = "one\n\n two".data := by decide

example : clean_final_answer "\n\n\n".data = "".data := by decide

example : clean_final_answer "Plan: p\n\nkeep\n\n\nq".data = "keep\n\nq".data := by decide

example : fbPlan "Plan:\n1. a - keep\n2. \n6. no\nReasoning: r".data = ["a - keep".data, "".data] := by decide

example : fbPlan "Reasoning: early\nPlan:\n1. x".data = [] := by decide

example : fbPlan "Plan:\n  2. pad  ".data = ["pad".data] := by decide

example : fb_params none "zz".data "q=hi, k= \u0027v\u0027 ".data = [("q".data, "hi".data), ("k".data, "v".data)] := by decide

example : fb_params none "zz".data "a=\"x\", a=y".data = [("a".data, "y".data)] := by decide

example : fb_params none "zz".data "".data = [] := by decide

example : fb_params none "zz".data "noeq".data = [] := by decide

example : fb_call_str "toolA".data "call toolA(q=1) now".data = "q=1".data := by decide

example : fb_call_str "toolA".data "toolA(a toolA(b)c".data = "a ".data := by decide

example : fb_call_str "t".data "t(x".data = "x".data := by decide

end QR

namespace QR

/-! ## Claim C9 -/

def c9Llm : Nat → Except Str Str := fun _ => Except.ok []

/-- C9 counterexample: with a generation model that returns the empty text
the fallback returns output = "" — _clean_final_answer has no fallback
for an empty cleaned answer (unlike the primary's extractor), so the
"always returns a non-empty output" guarantee is false. -/
theorem C9_empty_output_possible :
    (fallback_ainvoke [] c9Llm []).output = [] ∧
    fallback_ainvoke [] c9Llm [] =
      { events := [Event.planning_start,
          Event.planning_complete [] "无详细推理".data],
        output := [] } := by
  constructor
  · decide
  · decide

/-- C9 (amended: the fallback's run boundary returns normally for every
behaviour of the generation oracle and tools — any generation failure
inside the body is converted to the fixed, non-empty apology string —
but the output is not always non-empty: on the normal path it is the
cleaned summary text, which can be empty). -/
theorem C9_fallback_amended (st : RegState) (llm : Nat → Except Str Str)
    (input : Str) :
    ((fallback_ainvoke st llm input).output = fallbackApology ∨
      ∃ t, (fallback_ainvoke st llm input).output = clean_final_answer t) ∧
    fallbackApology ≠ [] := by
  refine ⟨?_, by decide⟩
  unfold fallback_ainvoke
  split
  · left
    rfl
  · split
    · left
      rfl
    · split
      · left
        rfl
      · rename_i fin heq
        right
        exact ⟨fin, FallOut_output_mk _ _⟩

/-- Witness for C9 at a concrete state and oracle. -/
theorem C9_fallback_amended_witness :
    ((fallback_ainvoke [] c9Llm []).output = fallbackApology ∨
      ∃ t, (fallback_ainvoke [] c9Llm []).output = clean_final_answer t) ∧
    fallbackApology ≠ [] :=
  C9_fallback_amended [] c9Llm []

end QR
